import Mathlib

/-!
Verification of the paging module of nahidaislam/Operativesystem-ID1206
(`src/memory/paging/mod.rs`).

The module is embedded shallowly: pure address arithmetic becomes Lean
functions on `Nat`; the fallible precondition check of
`Page::containing_address` (a Rust `assert!` that panics) becomes an
`Option`; the stateful operations (`ActivePageTable::with`, `switch`,
`InactivePageTable::new`, `remap_the_kernel`) become explicit state
passing over a machine-state record.  Companion modules of the repository
that are referenced but whose sources are not available (`memory/mod.rs`
for `Frame`, `entry.rs`, `table.rs`, `temporary_page.rs`, `mapper.rs`,
and the external `x86_64` / `multiboot2` crates) are modelled from the
specification, each marked as such in its doc comment.
-/

namespace Paging

/-- Constant `PAGE_SIZE` from `memory/mod.rs` (spec §4.1: PAGE_SIZE = 4096). -/
def PAGE_SIZE : Nat := 4096

/-- Constant `ENTRY_COUNT`: number of entries per table (`mod.rs` line 20). -/
def ENTRY_COUNT : Nat := 512

/-- Type `Page` (`mod.rs` lines 25-28): a virtual page identified by its number. -/
structure Page where
  number : Nat
deriving DecidableEq, Repr

namespace Page

/-- Function `Page::containing_address` (`mod.rs` lines 33-41).  The Rust code
`assert!`s that the address is canonical (below `0x0000_8000_0000_0000`
or at/above `0xffff_8000_0000_0000`) and panics otherwise; the panic is
modelled as `none`. -/
def containing_address (address : Nat) : Option Page :=
  if address < 0x0000800000000000 ∨ 0xffff800000000000 ≤ address then
    some ⟨address / PAGE_SIZE⟩
  else
    none

/-- Function `Page::start_address` (`mod.rs` lines 43-45). -/
def start_address (p : Page) : Nat := p.number * PAGE_SIZE

/-- Function `Page::p4_index` (`mod.rs` lines 48-50): `(number >> 27) & 0o777`. -/
def p4_index (p : Page) : Nat := (p.number >>> 27) &&& 0o777

/-- Function `Page::p3_index` (`mod.rs` lines 51-53): `(number >> 18) & 0o777`. -/
def p3_index (p : Page) : Nat := (p.number >>> 18) &&& 0o777

/-- Function `Page::p2_index` (`mod.rs` lines 54-56): `(number >> 9) & 0o777`. -/
def p2_index (p : Page) : Nat := (p.number >>> 9) &&& 0o777

/-- Function `Page::p1_index` (`mod.rs` lines 57-59): `(number >> 0) & 0o777`. -/
def p1_index (p : Page) : Nat := (p.number >>> 0) &&& 0o777

end Page

/-- Type `PageIter` (`mod.rs` lines 68-71).  The Rust field `end` is a Lean
keyword, so it is called `stop` here. -/
structure PageIter where
  start : Page
  stop : Page
deriving DecidableEq, Repr

/-- Function `Page::range_inclusive` (`mod.rs` lines 60-65). -/
def Page.range_inclusive (start stop : Page) : PageIter :=
  { start := start, stop := stop }

/-- Method `Iterator::next` for `PageIter` (`mod.rs` lines 76-84): while
`start <= end`, yield `start` and advance its number by one.  The Rust
comparison is the derived order on `Page`, i.e. on `number`. -/
def PageIter.next (it : PageIter) : Option (Page × PageIter) :=
  if it.start.number ≤ it.stop.number then
    some (it.start, { start := ⟨it.start.number + 1⟩, stop := it.stop })
  else
    none

/-- Repeatedly call `PageIter.next` at most `fuel` times, collecting the
yielded pages. -/
def PageIter.toListAux : Nat → PageIter → List Page
  | 0, _ => []
  | fuel + 1, it =>
    match it.next with
    | some (p, it') => p :: PageIter.toListAux fuel it'
    | none => []

/-- The full (finite) sequence produced by repeatedly calling
`PageIter.next`, as a list.  `stop.number + 1 - start.number` next-calls
suffice to exhaust the iterator. -/
def PageIter.toList (it : PageIter) : List Page :=
  PageIter.toListAux (it.stop.number + 1 - it.start.number) it

/-- Modelled from the spec: `Frame` lives in `memory/mod.rs`, which is not
under `src/`.  Spec §3: a physical frame identified by frame number =
physical address / page size. -/
structure Frame where
  number : Nat
deriving DecidableEq, Repr

/-- Modelled from the spec: `Frame::containing_address` (spec §3, §2.1),
mirroring `Page::containing_address` without the canonical check
(physical addresses have no canonical-form restriction). -/
def Frame.containing_address (address : Nat) : Frame :=
  ⟨address / PAGE_SIZE⟩

/-- Modelled from the spec: `Frame::start_address` = number × page size. -/
def Frame.start_address (f : Frame) : Nat := f.number * PAGE_SIZE

/-- Modelled from the spec: `Frame::range_inclusive` (used by
`remap_the_kernel`, `mod.rs` lines 238 and 250), the frame analogue of
`Page::range_inclusive`, here directly as the list it yields. -/
def Frame.range_inclusive (start stop : Frame) : List Frame :=
  (List.range' start.number (stop.number + 1 - start.number)).map Frame.mk

/-- Modelled from the spec: `EntryFlags` from `entry.rs` (spec §4.2).
Only the flags the verified claims mention are carried: present,
writable, no-execute. -/
structure EntryFlags where
  present : Bool
  writable : Bool
  no_execute : Bool
deriving DecidableEq, Repr

/-- Modelled from the spec: the `PRESENT` flag constant. -/
def PRESENT : EntryFlags := ⟨true, false, false⟩

/-- Modelled from the spec: the `WRITABLE` flag constant. -/
def WRITABLE : EntryFlags := ⟨false, true, false⟩

/-- Bitwise-or of flag sets, modelling Rust's `|` on `EntryFlags`. -/
instance : OrOp EntryFlags :=
  ⟨fun a b => ⟨a.present || b.present, a.writable || b.writable,
    a.no_execute || b.no_execute⟩⟩

/-- Modelled from the spec: a table `Entry` from `entry.rs` (spec §3,
§4.2): either unused (zero) or a mapped frame with flags. -/
inductive Entry where
  | unused
  | mapped (frame : Frame) (flags : EntryFlags)
deriving DecidableEq, Repr

/-- Modelled from the spec: `Entry::set(frame, flags)` writes the frame
address OR'd with the flag bits into the slot (spec §4.2). -/
def Entry.set (frame : Frame) (flags : EntryFlags) : Entry :=
  .mapped frame flags

/-- Modelled from the spec: `Entry::pointed_frame` — decoding an absent
entry yields no frame; a present entry yields its frame (spec §3, §4.2). -/
def Entry.pointed_frame : Entry → Option Frame
  | .unused => none
  | .mapped f flags => if flags.present then some f else none

/-- Modelled from the spec: a `Table` from `table.rs` (spec §3): an array
of 512 entries, here a function from slot index to entry. -/
def Table := Fin 512 → Entry

/-- Modelled from the spec: `Table::zero()` sets every entry to
empty/absent (spec §4.3). -/
def Table.zero : Table := fun _ => .unused

/-- Machine state for the stateful operations of `mod.rs`: the CR3
table-base register, physical memory viewed as frame number → table
contents, the `TemporaryPage` mapping state, and a counter of full
translation-cache flushes. -/
structure Machine where
  cr3 : Nat
  phys : Nat → Table
  temp : Option Frame
  tlbEpoch : Nat

/-- Write entry `e` into slot `i` of the table living in frame `f`. -/
def Machine.writeSlot (m : Machine) (f : Frame) (i : Fin 512) (e : Entry) : Machine :=
  { m with
    phys := fun n => if n = f.number then Function.update (m.phys n) i e else m.phys n }

/-- Modelled from the spec: `x86_64`'s `tlb::flush_all()` — invalidate the
entire translation cache (spec §6); counted by `tlbEpoch`. -/
def Machine.flush_all (m : Machine) : Machine :=
  { m with tlbEpoch := m.tlbEpoch + 1 }

/-- Modelled from the spec: `TemporaryPage::map_table_frame(frame, ...)`
from `temporary_page.rs` (spec §2.5): maps `frame` at the temporary page
and returns the frame's table as the handle through which subsequent
writes go. -/
def TemporaryPage.map_table_frame (m : Machine) (frame : Frame) : Frame × Machine :=
  (frame, { m with temp := some frame })

/-- Modelled from the spec: `TemporaryPage::unmap` releases the temporary
mapping (spec §2.5). -/
def TemporaryPage.unmap (m : Machine) : Machine :=
  { m with temp := none }

/-- Modelled from the spec: the frame the Mapper's `p4_mut()` recursive
virtual address resolves to — the currently active level-4 table, i.e.
the frame held in the table-base register (spec §4.5: "the active
table's recursive slot"). -/
def Machine.active_p4 (m : Machine) : Frame :=
  Frame.containing_address m.cr3

/-- Steps 1-4 of `ActivePageTable::with` (`mod.rs` lines 128-142): read
CR3 into `backup`, map `backup` at the temporary page obtaining the
handle `p4_table`, overwrite slot 511 of the active P4 with `inactive`'s
frame as present+writable, and flush the whole translation cache.
Returns the handle and the state in which the closure `f` runs. -/
def ActivePageTable.with_prepared (m : Machine) (inactive : Frame) : Frame × Machine :=
  let backup := Frame.containing_address m.cr3
  let pm := TemporaryPage.map_table_frame m backup
  let m2 := pm.2.writeSlot pm.2.active_p4 511 (Entry.set inactive (PRESENT ||| WRITABLE))
  (pm.1, m2.flush_all)

/-- Method `ActivePageTable::with` (`mod.rs` lines 117-153).  The closure `f`
receives a `&mut Mapper` and can therefore only edit page-table memory,
not CR3 or the temporary-page bookkeeping: it is modelled as a function
on the physical table memory.  After `f` runs, slot 511 is restored to
`backup` through the temporarily mapped handle, the cache is flushed
again, and the temporary page is unmapped.  (Named `withTable` because
`with` is a Lean keyword.) -/
def ActivePageTable.withTable (m : Machine) (inactive : Frame)
    (f : (Nat → Table) → (Nat → Table)) : Machine :=
  let backup := Frame.containing_address m.cr3
  let pm := ActivePageTable.with_prepared m inactive
  let m4 := { pm.2 with phys := f pm.2.phys }
  let m5 := m4.writeSlot pm.1 511 (Entry.set backup (PRESENT ||| WRITABLE))
  TemporaryPage.unmap m5.flush_all

/-- Method `ActivePageTable::switch` (`mod.rs` lines 157-171): read CR3 into an
`InactivePageTable` descriptor for the outgoing table (returned as its
`p4_frame`), then write the new table's frame start address into CR3. -/
def ActivePageTable.switch (m : Machine) (new_table : Frame) : Frame × Machine :=
  let old_table := Frame.containing_address m.cr3
  (old_table, { m with cr3 := new_table.start_address })

/-- Method `InactivePageTable::new` (`mod.rs` lines 184-198): map `frame` at the
temporary page, zero the table through the handle, set slot 511 to point
back at `frame` as present+writable, unmap the temporary page, and
return the descriptor holding `frame`. -/
def InactivePageTable.new (m : Machine) (frame : Frame) : Machine × Frame :=
  let tm := TemporaryPage.map_table_frame m frame
  let m2 := { tm.2 with phys := fun n => if n = tm.1.number then Table.zero else tm.2.phys n }
  let m3 := m2.writeSlot tm.1 511 (Entry.set frame (PRESENT ||| WRITABLE))
  (TemporaryPage.unmap m3, frame)

/-- A concrete machine whose physical memory is entirely zeroed, for
witnesses. -/
def zeroedMachine : Machine :=
  { cr3 := 0, phys := fun _ => Table.zero, temp := none, tlbEpoch := 0 }

/-- A concrete machine with the recursive-mapping invariant: CR3 holds
`0x2000` (frame 2) and slot 511 of frame 2 points back at frame 2. -/
def recursiveMachine : Machine :=
  { cr3 := 0x2000,
    phys := fun n => fun i =>
      if n = 2 ∧ i = 511 then Entry.set ⟨2⟩ (PRESENT ||| WRITABLE) else Entry.unused,
    temp := none,
    tlbEpoch := 0 }

/-- Modelled from the spec: `mapper.rs` is not under `src/`.  The
`Mapper`'s view of an address space (spec §4.4) is modelled as a finite
map from virtual page number to the mapped frame and flags; `none` is an
absent translation. -/
def AddrSpace := Nat → Option (Frame × EntryFlags)

/-- Modelled from the spec: `Mapper::translate_page` (spec §4.4) — the
walk without the offset combination. -/
def Mapper.translate_page (sp : AddrSpace) (p : Page) : Option Frame :=
  (sp p.number).map Prod.fst

/-- Modelled from the spec: `Mapper::map_to(page, frame, flags, ...)`
(spec §4.4): writes `frame` with `flags | PRESENT` into the entry for
`page`; a contract violation (already-present entry) is `none`. -/
def Mapper.map_to (sp : AddrSpace) (p : Page) (f : Frame) (flags : EntryFlags) :
    Option AddrSpace :=
  match sp p.number with
  | some _ => none
  | none => some (fun n => if n = p.number then some (f, flags ||| PRESENT) else sp n)

/-- Modelled from the spec: `Mapper::identity_map(frame, flags, ...)`
(spec §4.4): maps the page whose number equals the frame's number (via
`Page::containing_address(frame.start_address())`, which keeps the
canonical-address check) to that frame. -/
def Mapper.identity_map (sp : AddrSpace) (f : Frame) (flags : EntryFlags) :
    Option AddrSpace :=
  match Page.containing_address f.start_address with
  | none => none
  | some p => Mapper.map_to sp p f flags

/-- Modelled from the spec: `Mapper::unmap(page, ...)` (spec §4.4):
asserts the entry is present (`none` models the failed assertion),
clears it, and returns the detached frame. -/
def Mapper.unmap (sp : AddrSpace) (p : Page) : Option (AddrSpace × Frame) :=
  match sp p.number with
  | none => none
  | some fv => some (fun n => if n = p.number then none else sp n, fv.1)

/-- Modelled from the spec: a loaded section as reported by the external
`multiboot2` boot-information collaborator (spec §6): start address,
size, whether it occupies memory at runtime, and permissions. -/
structure ElfSection where
  addr : Nat
  size : Nat
  allocated : Bool
  writable : Bool
  executable : Bool
deriving DecidableEq, Repr

/-- Accessor `section.start_address()` as used in `mod.rs` line 236. -/
def ElfSection.start_address (s : ElfSection) : Nat := s.addr

/-- Accessor `section.end_address()` as used in `mod.rs` line 237. -/
def ElfSection.end_address (s : ElfSection) : Nat := s.addr + s.size

/-- Accessor `section.is_allocated()` as used in `mod.rs` line 224. -/
def ElfSection.is_allocated (s : ElfSection) : Bool := s.allocated

/-- Modelled from the spec: `EntryFlags::from_elf_section_flags`
(`entry.rs`, spec §4.2): derives the entry flags from the section's
attributes, defaulting to no-execute unless the section is explicitly
executable. -/
def EntryFlags.from_elf_section_flags (s : ElfSection) : EntryFlags :=
  ⟨s.allocated, s.writable, !s.executable⟩

/-- Modelled from the spec: the boot-information structure (spec §6):
the section list and the structure's own physical extent. -/
structure BootInformation where
  sections : List ElfSection
  start_address : Nat
  end_address : Nat

/-- The inner frame loop of `remap_the_kernel` (`mod.rs` lines 238-240
and 250-252): identity-map every frame of the list, failing if any
single `identity_map` fails. -/
def identity_map_frames (sp : AddrSpace) (flags : EntryFlags) :
    List Frame → Option AddrSpace
  | [] => some sp
  | fr :: rest =>
    match Mapper.identity_map sp fr flags with
    | none => none
    | some sp' => identity_map_frames sp' flags rest

/-- One iteration of the section loop of `remap_the_kernel` (`mod.rs`
lines 220-241): skip a non-allocated section; fail fast (the `assert!`)
on an allocated section whose start address is not page-aligned;
otherwise identity-map every frame the section spans with flags derived
from the section's attributes. -/
def map_section (sp : AddrSpace) (s : ElfSection) : Option AddrSpace :=
  if !s.is_allocated then
    some sp
  else if s.start_address % PAGE_SIZE ≠ 0 then
    none
  else
    identity_map_frames sp (EntryFlags.from_elf_section_flags s)
      (Frame.range_inclusive (Frame.containing_address s.start_address)
        (Frame.containing_address (s.end_address - 1)))

/-- The whole section loop of `remap_the_kernel` over the boot-reported
section list. -/
def map_elf_sections (sp : AddrSpace) : List ElfSection → Option AddrSpace
  | [] => some sp
  | s :: rest =>
    match map_section sp s with
    | none => none
    | some sp' => map_elf_sections sp' rest

/-- The closure passed to `ActivePageTable::with` in `remap_the_kernel`
(`mod.rs` lines 215-254): map the kernel sections, identity-map the VGA
text buffer frame (`0xb8000`) as writable, and identity-map every frame
spanning the multiboot information structure as present-only. -/
def remap_closure (bi : BootInformation) (sp : AddrSpace) : Option AddrSpace :=
  match map_elf_sections sp bi.sections with
  | none => none
  | some sp1 =>
    match Mapper.identity_map sp1 (Frame.containing_address 0xb8000) WRITABLE with
    | none => none
    | some sp2 =>
      identity_map_frames sp2 PRESENT
        (Frame.range_inclusive (Frame.containing_address bi.start_address)
          (Frame.containing_address (bi.end_address - 1)))

/-- The outcome of a successful `remap_the_kernel` run: the CR3 value
after the switch, the active address space, and the outgoing table's
frame (`old_table.p4_frame`). -/
structure RemapResult where
  active_cr3 : Nat
  space : AddrSpace
  old_frame : Frame

instance : Inhabited RemapResult := ⟨⟨0, fun _ => none, ⟨0⟩⟩⟩

/-- Function `remap_the_kernel` (`mod.rs` lines 202-267), at the address-space
level: allocate a frame for the new table (`expect` models as `none` on
exhaustion), build the new (initially empty) address space via the
`with` closure, switch to it (CR3 := new frame's start address, old
table = frame containing the previous CR3), and turn the old top-level
table's page into a guard page by unmapping it from the now-active
space. -/
def remap_the_kernel (alloc : List Frame) (bi : BootInformation) (cr3 : Nat) :
    Option RemapResult :=
  match alloc.head? with
  | none => none
  | some frame =>
    match remap_closure bi (fun _ => none) with
    | none => none
    | some sp1 =>
      match Page.containing_address (Frame.containing_address cr3).start_address with
      | none => none
      | some old_p4_page =>
        match Mapper.unmap sp1 old_p4_page with
        | none => none
        | some spf => some ⟨frame.start_address, spf.1, Frame.containing_address cr3⟩

/-- Concrete allocator for the C2 witness: one free frame, number 5. -/
def c2alloc : List Frame := [⟨5⟩]

/-- Concrete boot information for the C2 witness: one loaded, page-aligned,
writable section covering exactly the old table's frame. -/
def c2boot : BootInformation :=
  { sections := [⟨0x1000, 0x1000, true, true, false⟩],
    start_address := 0x9000,
    end_address := 0x9001 }

/-- The result of the concrete C2 remap run (entry CR3 = `0x1000`). -/
def c2result : RemapResult :=
  (remap_the_kernel c2alloc c2boot 0x1000).getD default

/-- Concrete sections for the C7 witness. -/
def c7AlignedSection : ElfSection := ⟨0x1000, 0x1000, true, true, false⟩

/-- An allocated but misaligned section for the C7 witness. -/
def c7MisalignedSection : ElfSection := ⟨0x10, 0x1000, true, false, false⟩

/-- A non-allocated section for the C7 witness. -/
def c7SkippedSection : ElfSection := ⟨0x123, 0x50, false, false, false⟩

/-- Boot information containing the misaligned section. -/
def c7BootMis : BootInformation := ⟨[c7MisalignedSection], 0x9000, 0x9001⟩

/-- The address space the section loop builds for the aligned section. -/
def c7Space : AddrSpace :=
  (map_elf_sections (fun _ => none) [c7AlignedSection]).getD (fun _ => none)


/-- Helper lemma: `toListAux` is insensitive to extra fuel: as soon as the fuel covers
the number of pages left, the iterator is drained and the result is the
arithmetic range of page numbers. -/
theorem PageIter.toListAux_eq (k : Nat) :
    ∀ it : PageIter, it.stop.number + 1 - it.start.number ≤ k →
      PageIter.toListAux k it
        = (List.range' it.start.number (it.stop.number + 1 - it.start.number)).map Page.mk := by
  induction k with
  | zero =>
    intro it h
    have h0 : it.stop.number + 1 - it.start.number = 0 := Nat.le_zero.mp h
    simp [PageIter.toListAux, h0]
  | succ k ih =>
    intro it h
    by_cases hle : it.start.number ≤ it.stop.number
    · have hnext : it.next = some (it.start, ⟨⟨it.start.number + 1⟩, it.stop⟩) := by
        simp [PageIter.next, hle]
      have hcount : it.stop.number + 1 - it.start.number
          = (it.stop.number + 1 - (it.start.number + 1)) + 1 := by omega
      rw [hcount]
      simp only [PageIter.toListAux, hnext, List.range', List.map_cons]
      have := ih ⟨⟨it.start.number + 1⟩, it.stop⟩ (by simp only; omega)
      simp only at this
      rw [this]
    · have hnext : it.next = none := by
        simp [PageIter.next, hle]
      have h0 : it.stop.number + 1 - it.start.number = 0 := by omega
      simp [PageIter.toListAux, hnext, h0]

/-- C8: `Page::range_inclusive(start, end)` yields exactly the pages whose
numbers run from `start.number` to `end.number` inclusive, in increasing
order advancing by one per step, and yields nothing when `start > end`. -/
theorem range_inclusive_yields_range (s e : Page) :
    (s.number ≤ e.number →
      (Page.range_inclusive s e).toList
        = (List.range' s.number (e.number - s.number + 1)).map Page.mk)
    ∧ (e.number < s.number → (Page.range_inclusive s e).toList = []) := by
  constructor
  · intro hle
    have hnum := PageIter.toListAux_eq (e.number + 1 - s.number) (Page.range_inclusive s e)
      (by simp [Page.range_inclusive])
    have harg : e.number + 1 - s.number = e.number - s.number + 1 := by omega
    simp only [Page.range_inclusive] at hnum ⊢
    rw [PageIter.toList]
    simp only
    rw [hnum]
    rw [harg]
  · intro hlt
    have h0 : e.number + 1 - s.number = 0 := by omega
    rw [PageIter.toList]
    simp only [Page.range_inclusive, h0, PageIter.toListAux]

/-- Witness for C8 at concrete iterators 3..5 and 5..3. -/
theorem range_inclusive_yields_range_witness :
    (Page.range_inclusive ⟨3⟩ ⟨5⟩).toList = [⟨3⟩, ⟨4⟩, ⟨5⟩]
    ∧ (Page.range_inclusive ⟨5⟩ ⟨3⟩).toList = [] := by
  constructor
  · have h := (range_inclusive_yields_range ⟨3⟩ ⟨5⟩).1 (by decide)
    rw [h]
    decide
  · exact (range_inclusive_yields_range ⟨5⟩ ⟨3⟩).2 (by decide)

/-- C5: for every canonical virtual address `a`, the page returned by
`Page::containing_address` contains `a`:
`start_address ≤ a < start_address + PAGE_SIZE`. -/
theorem containing_address_bounds (a : Nat) (p : Page)
    (hcanon : a < 0x0000800000000000 ∨ 0xffff800000000000 ≤ a)
    (hp : Page.containing_address a = some p) :
    p.start_address ≤ a ∧ a < p.start_address + PAGE_SIZE := by
  simp only [Page.containing_address, if_pos hcanon, Option.some.injEq] at hp
  subst hp
  simp only [Page.start_address, PAGE_SIZE]
  have hdm := Nat.div_add_mod a 4096
  have hmlt : a % 4096 < 4096 := Nat.mod_lt a (by omega)
  omega

/-- Witness for C5 at the concrete address 5000 (page 1). -/
theorem containing_address_bounds_witness :
    Page.start_address ⟨1⟩ ≤ 5000 ∧ 5000 < Page.start_address ⟨1⟩ + PAGE_SIZE :=
  containing_address_bounds 5000 ⟨1⟩ (by decide) (by decide)

/-- C6: `Page::containing_address` fails its precondition check (panics,
modelled as `none`) exactly on the non-canonical gap
`[0x0000_8000_0000_0000, 0xffff_8000_0000_0000)`, and succeeds on every
address outside the gap. -/
theorem containing_address_gap (a : Nat) :
    (0x0000800000000000 ≤ a → a < 0xffff800000000000 →
      Page.containing_address a = none)
    ∧ (a < 0x0000800000000000 ∨ 0xffff800000000000 ≤ a →
      Page.containing_address a = some ⟨a / PAGE_SIZE⟩) := by
  constructor
  · intro h1 h2
    simp only [Page.containing_address]
    rw [if_neg]
    omega
  · intro h
    simp only [Page.containing_address, if_pos h]

/-- Witness for C6 at the gap address `0x1_0000_0000_0000` and the valid
address `0x1000`. -/
theorem containing_address_gap_witness :
    Page.containing_address 0x1000000000000 = none
    ∧ Page.containing_address 0x1000 = some ⟨1⟩ := by
  constructor
  · exact (containing_address_gap 0x1000000000000).1 (by decide) (by decide)
  · exact (containing_address_gap 0x1000).2 (by decide)

/-- C9: `start_address` is a right inverse of `containing_address` on
pages with canonical start addresses:
`Page::containing_address(p.start_address()) == p`. -/
theorem containing_address_start_address (p : Page)
    (h : p.start_address < 0x0000800000000000 ∨ 0xffff800000000000 ≤ p.start_address) :
    Page.containing_address p.start_address = some p := by
  cases p with
  | mk n =>
    unfold Page.containing_address
    rw [if_pos h]
    simp only [Page.start_address, PAGE_SIZE, Option.some.injEq]
    congr 1
    simp

/-- Witness for C9 at the concrete page 7. -/
theorem containing_address_start_address_witness :
    Page.containing_address (Page.start_address ⟨7⟩) = some ⟨7⟩ :=
  containing_address_start_address ⟨7⟩ (by decide)

/-- C4: `ActivePageTable::switch(new)` returns as `p4_frame` the frame
containing the CR3 value read before the write, and afterwards CR3 holds
`new`'s frame start address. -/
theorem switch_reads_then_writes_cr3 (m : Machine) (new_table : Frame) :
    (ActivePageTable.switch m new_table).1 = Frame.containing_address m.cr3
    ∧ (ActivePageTable.switch m new_table).2.cr3 = new_table.start_address :=
  ⟨rfl, rfl⟩

/-- C3: `InactivePageTable::new(frame, ...)` leaves `frame` as an empty
level-4 table whose only present entry is the slot-511 self-reference
(present and writable, pointing back at `frame`), with the temporary
page unmapped, and returns the descriptor holding `frame`. -/
theorem inactive_new_empty_self_referential (m : Machine) (frame : Frame) :
    (∀ i : Fin 512, i ≠ 511 →
      (InactivePageTable.new m frame).1.phys frame.number i = Entry.unused)
    ∧ (InactivePageTable.new m frame).1.phys frame.number 511
      = Entry.set frame (PRESENT ||| WRITABLE)
    ∧ ((InactivePageTable.new m frame).1.phys frame.number 511).pointed_frame
      = some frame
    ∧ (InactivePageTable.new m frame).1.temp = none
    ∧ (InactivePageTable.new m frame).2 = frame := by
  refine ⟨?_, ?_, ?_, rfl, rfl⟩
  · intro i hi
    simp [InactivePageTable.new, TemporaryPage.map_table_frame, Machine.writeSlot,
      TemporaryPage.unmap, Table.zero, Function.update, hi]
  · simp [InactivePageTable.new, TemporaryPage.map_table_frame, Machine.writeSlot,
      TemporaryPage.unmap, Function.update]
  · simp [InactivePageTable.new, TemporaryPage.map_table_frame, Machine.writeSlot,
      TemporaryPage.unmap, Function.update, Entry.set, Entry.pointed_frame,
      show (PRESENT ||| WRITABLE).present = true from rfl]

/-- Witness for C3: building an inactive table in frame 4 of a zeroed
machine leaves slot 0 unused and slot 511 pointing back at frame 4. -/
theorem inactive_new_empty_self_referential_witness :
    (InactivePageTable.new zeroedMachine ⟨4⟩).1.phys 4 0 = Entry.unused
    ∧ ((InactivePageTable.new zeroedMachine ⟨4⟩).1.phys 4 511).pointed_frame
      = some ⟨4⟩ :=
  ⟨(inactive_new_empty_self_referential zeroedMachine ⟨4⟩).1 0 (by decide),
    (inactive_new_empty_self_referential zeroedMachine ⟨4⟩).2.2.1⟩

/-- C1: `ActivePageTable::with(inactive, temporary_page, f)` reads the
backup frame from CR3 at entry; in the state in which `f` runs, slot 511
of the active level-4 table points at `inactive`'s frame and a full
translation-cache flush has happened; upon return slot 511 again holds
the frame it held at entry (given the recursive-mapping invariant at
entry), a second full flush has happened, and the temporary page is
unmapped. -/
theorem with_preserves_recursive_slot (m : Machine) (inactive : Frame)
    (f : (Nat → Table) → (Nat → Table))
    (hrec : (m.phys (Frame.containing_address m.cr3).number 511).pointed_frame
      = some (Frame.containing_address m.cr3)) :
    ((ActivePageTable.with_prepared m inactive).2.phys
        (Frame.containing_address m.cr3).number 511).pointed_frame = some inactive
    ∧ (ActivePageTable.with_prepared m inactive).2.tlbEpoch = m.tlbEpoch + 1
    ∧ (ActivePageTable.withTable m inactive f).cr3 = m.cr3
    ∧ ((ActivePageTable.withTable m inactive f).phys
          (Frame.containing_address m.cr3).number 511).pointed_frame
      = (m.phys (Frame.containing_address m.cr3).number 511).pointed_frame
    ∧ (ActivePageTable.withTable m inactive f).tlbEpoch = m.tlbEpoch + 2
    ∧ (ActivePageTable.withTable m inactive f).temp = none := by
  refine ⟨?_, rfl, rfl, ?_, rfl, rfl⟩
  · simp [ActivePageTable.with_prepared, TemporaryPage.map_table_frame,
      Machine.writeSlot, Machine.flush_all, Machine.active_p4, Function.update,
      Entry.set, Entry.pointed_frame,
      show (PRESENT ||| WRITABLE).present = true from rfl]
  · rw [hrec]
    simp [ActivePageTable.withTable, ActivePageTable.with_prepared,
      TemporaryPage.map_table_frame, TemporaryPage.unmap, Machine.writeSlot,
      Machine.flush_all, Machine.active_p4, Function.update,
      Entry.set, Entry.pointed_frame,
      show (PRESENT ||| WRITABLE).present = true from rfl]

/-- Witness for C1 on `recursiveMachine` with inactive frame 7 and the
identity closure. -/
theorem with_preserves_recursive_slot_witness :
    ((ActivePageTable.with_prepared recursiveMachine ⟨7⟩).2.phys 2 511).pointed_frame
      = some ⟨7⟩
    ∧ (ActivePageTable.with_prepared recursiveMachine ⟨7⟩).2.tlbEpoch = 1
    ∧ (ActivePageTable.withTable recursiveMachine ⟨7⟩ id).cr3 = 0x2000
    ∧ ((ActivePageTable.withTable recursiveMachine ⟨7⟩ id).phys 2 511).pointed_frame
      = (recursiveMachine.phys 2 511).pointed_frame
    ∧ (ActivePageTable.withTable recursiveMachine ⟨7⟩ id).tlbEpoch = 2
    ∧ (ActivePageTable.withTable recursiveMachine ⟨7⟩ id).temp = none :=
  with_preserves_recursive_slot recursiveMachine ⟨7⟩ id (by decide)

/-- A successful `Page::containing_address` returns the page numbered
`address / PAGE_SIZE`. -/
theorem containing_address_eq_some (a : Nat) (p : Page)
    (h : Page.containing_address a = some p) : p.number = a / PAGE_SIZE := by
  unfold Page.containing_address at h
  split at h
  · injection h with h
    subst h
    rfl
  · exact Option.noConfusion h

/-- C2: a successful `remap_the_kernel(allocator, boot_info)` run reports
as old table the frame containing the entry CR3 value, leaves the page
containing that frame's start address unmapped in the resulting active
address space (a guard page), and returns the active table with CR3 set
to the newly allocated frame's start address. -/
theorem remap_guard_page (alloc : List Frame) (bi : BootInformation) (cr3 : Nat)
    (r : RemapResult) (h : remap_the_kernel alloc bi cr3 = some r) :
    r.old_frame = Frame.containing_address cr3
    ∧ Mapper.translate_page r.space ⟨r.old_frame.number⟩ = none
    ∧ ∀ fr, alloc.head? = some fr → r.active_cr3 = fr.start_address := by
  unfold remap_the_kernel at h
  split at h
  · exact Option.noConfusion h
  next frame halloc =>
    split at h
    · exact Option.noConfusion h
    next sp1 hclosure =>
      split at h
      · exact Option.noConfusion h
      next old_p4_page hpage =>
        split at h
        · exact Option.noConfusion h
        next spf hunmap =>
          injection h with h
          subst h
          refine ⟨rfl, ?_, ?_⟩
          · have hnum : old_p4_page.number = (Frame.containing_address cr3).number := by
              have h2 := containing_address_eq_some _ _ hpage
              simp only [Frame.start_address, PAGE_SIZE] at h2
              simpa using h2
            unfold Mapper.unmap at hunmap
            split at hunmap
            · exact Option.noConfusion hunmap
            next fv hfv =>
              injection hunmap with hunmap
              subst hunmap
              simp [Mapper.translate_page, hnum]
          · intro fr hfr
            rw [halloc] at hfr
            injection hfr with hfr
            subst hfr
            rfl

/-- Witness for C2: the concrete run succeeds, reports old frame 1, leaves
page 1 unmapped, and switches CR3 to frame 5's start address. -/
theorem remap_guard_page_witness :
    remap_the_kernel c2alloc c2boot 0x1000 = some c2result
    ∧ c2result.old_frame = Frame.containing_address 0x1000
    ∧ Mapper.translate_page c2result.space ⟨1⟩ = none
    ∧ c2result.active_cr3 = 0x5000 :=
  ⟨rfl,
    (remap_guard_page c2alloc c2boot 0x1000 c2result rfl).1,
    (remap_guard_page c2alloc c2boot 0x1000 c2result rfl).2.1,
    (remap_guard_page c2alloc c2boot 0x1000 c2result rfl).2.2 ⟨5⟩ rfl⟩

/-- Lemma: `Mapper::map_to` never disturbs an existing translation: every page
mapped before a successful `map_to` is still mapped to the same frame
and flags afterwards. -/
theorem map_to_mono {sp sp' : AddrSpace} {p : Page} {f : Frame} {fl : EntryFlags}
    (h : Mapper.map_to sp p f fl = some sp') :
    ∀ n v, sp n = some v → sp' n = some v := by
  intro n v hv
  unfold Mapper.map_to at h
  split at h
  · exact Option.noConfusion h
  next hnone =>
    injection h with h
    subst h
    have hne : n ≠ p.number := by
      intro he
      rw [he, hnone] at hv
      exact Option.noConfusion hv
    simp [hne, hv]

/-- Lemma: `Mapper::identity_map` never disturbs an existing translation. -/
theorem identity_map_mono {sp sp' : AddrSpace} {f : Frame} {fl : EntryFlags}
    (h : Mapper.identity_map sp f fl = some sp') :
    ∀ n v, sp n = some v → sp' n = some v := by
  unfold Mapper.identity_map at h
  split at h
  · exact Option.noConfusion h
  next p hp => exact map_to_mono h

/-- The frame loop never disturbs an existing translation. -/
theorem identity_map_frames_mono (fl : EntryFlags) :
    ∀ (lfr : List Frame) (sp sp' : AddrSpace),
      identity_map_frames sp fl lfr = some sp' →
      ∀ n v, sp n = some v → sp' n = some v := by
  intro lfr
  induction lfr with
  | nil =>
    intro sp sp' h n v hv
    unfold identity_map_frames at h
    injection h with h
    subst h
    exact hv
  | cons fr rest ih =>
    intro sp sp' h n v hv
    unfold identity_map_frames at h
    split at h
    · exact Option.noConfusion h
    next sp1 hid =>
      exact ih sp1 sp' h n v (identity_map_mono hid n v hv)

/-- One section-loop iteration never disturbs an existing translation. -/
theorem map_section_mono {sp sp' : AddrSpace} {s : ElfSection}
    (h : map_section sp s = some sp') :
    ∀ n v, sp n = some v → sp' n = some v := by
  unfold map_section at h
  split at h
  · injection h with h
    subst h
    exact fun n v hv => hv
  split at h
  · exact Option.noConfusion h
  · exact identity_map_frames_mono _ _ sp sp' h

/-- The whole section loop never disturbs an existing translation. -/
theorem map_elf_sections_mono :
    ∀ (l : List ElfSection) (sp sp' : AddrSpace),
      map_elf_sections sp l = some sp' →
      ∀ n v, sp n = some v → sp' n = some v := by
  intro l
  induction l with
  | nil =>
    intro sp sp' h n v hv
    unfold map_elf_sections at h
    injection h with h
    subst h
    exact hv
  | cons s0 rest ih =>
    intro sp sp' h n v hv
    unfold map_elf_sections at h
    split at h
    · exact Option.noConfusion h
    next sp1 hsec =>
      exact ih sp1 sp' h n v (map_section_mono hsec n v hv)

/-- A successful `identity_map` establishes the identity translation for
its frame, with the present bit OR'd in. -/
theorem identity_map_sets {sp sp' : AddrSpace} {f : Frame} {fl : EntryFlags}
    (h : Mapper.identity_map sp f fl = some sp') :
    sp' f.number = some (f, fl ||| PRESENT) := by
  unfold Mapper.identity_map at h
  split at h
  · exact Option.noConfusion h
  next p hp =>
    have hnum : p.number = f.number := by
      have h2 := containing_address_eq_some _ _ hp
      simp only [Frame.start_address, PAGE_SIZE] at h2
      simpa using h2
    unfold Mapper.map_to at h
    split at h
    · exact Option.noConfusion h
    next hnone =>
      injection h with h
      subst h
      simp [hnum]

/-- A successful frame loop establishes the identity translation for
every frame of its list. -/
theorem identity_map_frames_sets (fl : EntryFlags) :
    ∀ (lfr : List Frame) (sp sp' : AddrSpace),
      identity_map_frames sp fl lfr = some sp' →
      ∀ fr ∈ lfr, sp' fr.number = some (fr, fl ||| PRESENT) := by
  intro lfr
  induction lfr with
  | nil =>
    intro sp sp' h fr hfr
    exact absurd hfr (List.not_mem_nil fr)
  | cons fr0 rest ih =>
    intro sp sp' h fr hfr
    unfold identity_map_frames at h
    split at h
    · exact Option.noConfusion h
    next sp1 hid =>
      rcases List.mem_cons.mp hfr with he | hm
      · subst he
        exact identity_map_frames_mono fl rest sp1 sp' h _ _ (identity_map_sets hid)
      · exact ih sp1 sp' h fr hm

/-- A successful iteration on an allocated section identity-maps every
frame the section spans with the section-derived flags. -/
theorem map_section_sets {sp sp' : AddrSpace} {s : ElfSection}
    (halloc : s.is_allocated = true) (h : map_section sp s = some sp') :
    ∀ fr ∈ Frame.range_inclusive (Frame.containing_address s.start_address)
        (Frame.containing_address (s.end_address - 1)),
      sp' fr.number = some (fr, EntryFlags.from_elf_section_flags s ||| PRESENT) := by
  unfold map_section at h
  rw [halloc] at h
  simp only [Bool.not_true] at h
  rw [if_neg (by simp)] at h
  split at h
  · exact Option.noConfusion h
  · exact identity_map_frames_sets _ _ sp sp' h

/-- A successful section loop identity-maps every frame spanned by every
allocated section of the list. -/
theorem map_elf_sections_sets :
    ∀ (l : List ElfSection) (sp sp' : AddrSpace),
      map_elf_sections sp l = some sp' →
      ∀ s ∈ l, s.is_allocated = true →
        ∀ fr ∈ Frame.range_inclusive (Frame.containing_address s.start_address)
            (Frame.containing_address (s.end_address - 1)),
          sp' fr.number = some (fr, EntryFlags.from_elf_section_flags s ||| PRESENT) := by
  intro l
  induction l with
  | nil =>
    intro sp sp' h s hs
    exact absurd hs (List.not_mem_nil s)
  | cons s0 rest ih =>
    intro sp sp' h s hs hsa fr hfr
    unfold map_elf_sections at h
    split at h
    · exact Option.noConfusion h
    next sp1 hsec =>
      rcases List.mem_cons.mp hs with he | hm
      · subst he
        exact map_elf_sections_mono rest sp1 sp' h _ _ (map_section_sets hsa hsec fr hfr)
      · exact ih sp1 sp' h s hm hsa fr hfr

/-- The section loop fails fast as soon as it holds an allocated section
whose start address is not page-aligned. -/
theorem map_elf_sections_misaligned :
    ∀ (l : List ElfSection) (sp : AddrSpace) (s : ElfSection), s ∈ l →
      s.is_allocated = true → s.start_address % PAGE_SIZE ≠ 0 →
      map_elf_sections sp l = none := by
  intro l
  induction l with
  | nil =>
    intro sp s hs
    exact absurd hs (List.not_mem_nil s)
  | cons s0 rest ih =>
    intro sp s hs hsa hmis
    rcases List.mem_cons.mp hs with he | hm
    · subst he
      have hsec : map_section sp s = none := by
        unfold map_section
        rw [hsa]
        simp [hmis]
      show (match map_section sp s with
        | none => none
        | some sp' => map_elf_sections sp' rest) = none
      rw [hsec]
    · cases hsec : map_section sp s0 with
      | none =>
        show (match map_section sp s0 with
          | none => none
          | some sp' => map_elf_sections sp' rest) = none
        rw [hsec]
      | some sp1 =>
        show (match map_section sp s0 with
          | none => none
          | some sp' => map_elf_sections sp' rest) = none
        rw [hsec]
        exact ih sp1 s hm hsa hmis

/-- C7: during `remap_the_kernel`, an allocated section whose start
address is not page-aligned makes the whole remap fail fast; in a
successful section loop every allocated section has every frame it
spans identity-mapped with flags derived from the section's attributes;
and a non-allocated section is skipped by the loop without mapping
anything. -/
theorem remap_section_mapping (alloc : List Frame) (bi : BootInformation)
    (cr3 : Nat) (sp : AddrSpace) (l : List ElfSection) :
    (∀ s ∈ bi.sections, s.is_allocated = true → s.start_address % PAGE_SIZE ≠ 0 →
      remap_the_kernel alloc bi cr3 = none)
    ∧ (∀ sp', map_elf_sections sp l = some sp' →
        ∀ s ∈ l, s.is_allocated = true →
          ∀ fr ∈ Frame.range_inclusive (Frame.containing_address s.start_address)
              (Frame.containing_address (s.end_address - 1)),
            sp' fr.number = some (fr, EntryFlags.from_elf_section_flags s ||| PRESENT))
    ∧ (∀ s rest, s.is_allocated = false →
        map_elf_sections sp (s :: rest) = map_elf_sections sp rest) := by
  refine ⟨?_, ?_, ?_⟩
  · intro s hs hsa hmis
    have hnone := map_elf_sections_misaligned bi.sections (fun _ => none) s hs hsa hmis
    unfold remap_the_kernel
    cases halloc : alloc.head? with
    | none => rfl
    | some frame =>
      have hclos : remap_closure bi (fun _ => none) = none := by
        unfold remap_closure
        rw [hnone]
      rw [hclos]
  · intro sp' h s hs hsa fr hfr
    exact map_elf_sections_sets l sp sp' h s hs hsa fr hfr
  · intro s rest hna
    have hsec : map_section sp s = some sp := by
      unfold map_section
      rw [hna]
      rfl
    show (match map_section sp s with
      | none => none
      | some sp' => map_elf_sections sp' rest) = map_elf_sections sp rest
    rw [hsec]

/-- Witness for C7: the misaligned boot info makes the remap fail, the
aligned section gets its one frame identity-mapped with derived flags,
and the skipped section leaves the loop unchanged. -/
theorem remap_section_mapping_witness :
    remap_the_kernel [⟨5⟩] c7BootMis 0x1000 = none
    ∧ map_elf_sections (fun _ => none) [c7AlignedSection] = some c7Space
    ∧ c7Space 1 = some (⟨1⟩, EntryFlags.from_elf_section_flags c7AlignedSection ||| PRESENT)
    ∧ map_elf_sections (fun _ => none) [c7SkippedSection]
      = map_elf_sections (fun _ => none) [] := by
  refine ⟨?_, rfl, ?_, ?_⟩
  · exact (remap_section_mapping [⟨5⟩] c7BootMis 0x1000 (fun _ => none) []).1
      c7MisalignedSection (by decide) (by decide) (by decide)
  · exact (remap_section_mapping [⟨5⟩] c7BootMis 0x1000 (fun _ => none)
      [c7AlignedSection]).2.1 c7Space rfl c7AlignedSection (by decide) (by decide)
      ⟨1⟩ (by decide)
  · exact (remap_section_mapping [⟨5⟩] c7BootMis 0x1000 (fun _ => none) []).2.2
      c7SkippedSection [] (by decide)

/-- C10: each of the four table-index accessors returns a value strictly
below `ENTRY_COUNT` = 512, so table indexing with them is in bounds. -/
theorem table_indices_lt_entry_count (p : Page) :
    p.p4_index < ENTRY_COUNT ∧ p.p3_index < ENTRY_COUNT
    ∧ p.p2_index < ENTRY_COUNT ∧ p.p1_index < ENTRY_COUNT := by
  refine ⟨?_, ?_, ?_, ?_⟩
  · exact lt_of_le_of_lt Nat.and_le_right (by decide)
  · exact lt_of_le_of_lt Nat.and_le_right (by decide)
  · exact lt_of_le_of_lt Nat.and_le_right (by decide)
  · exact lt_of_le_of_lt Nat.and_le_right (by decide)

end Paging

